import Mathlib

/-!
Verification of the natural-language specification of
`azure-spotnode-price-checker` against a shallow embedding of its code.

The embedding follows `src/index.js` (the acquisition orchestrator, fetch
client, remote dataset store and local fallback store) and
`scripts/process-data.js` (the aggregator).  JavaScript numbers are
modelled as exact rationals, the ambient wall clock and every external
effect (HTTP responses, filesystem results, the `JSON.parse` builtin) are
explicit inputs gathered in an `Env` record, and a JS function whose whole
body sits under `try/catch` is embedded as a total Lean function while a
function that can rethrow returns `Except`.
-/

namespace SpotPrice

/-- One configured region, from the `REGIONS` constant of `src/index.js`. -/
structure Region where
  name : String
  displayName : String
deriving DecidableEq, Repr

/-- The fixed region list (`REGIONS`, src/index.js lines 8-17). -/
def REGIONS : List Region :=
  [⟨"eastus2", "East US 2"⟩, ⟨"northeurope", "North Europe"⟩]

/-- One row of the pricing API's `Items` array (the fields the code reads). -/
structure PriceItem where
  retailPrice : ℚ
  unitPrice : ℚ
  currencyCode : String
  location : String
  effectiveStartDate : String
  meterName : String
  skuName : String
deriving DecidableEq, Repr

/-- The pricing API response body: the `Items` array consumed by
`fetchPriceData`. -/
structure PriceApiData where
  Items : List PriceItem
deriving DecidableEq, Repr

/-- A Sample: one observation for one region, as built by `fetchPriceData`. -/
structure Sample where
  region : String
  timestamp : String
  retailPrice : ℚ
  unitPrice : ℚ
  currencyCode : String
  location : String
  effectiveStartDate : String
  meterName : String
  skuName : String
deriving DecidableEq, Repr

/-- A Run Record: one execution's output, `{ timestamp, regions }`.  The JS
object `results.regions` is embedded as an association list in key-insertion
order (JS objects preserve insertion order of string keys). -/
structure RunRecord where
  timestamp : String
  regions : List (String × Sample)
deriving DecidableEq, Repr

/-- The Dataset: an ordered sequence of Run Records. -/
abbrev Dataset := List RunRecord

/-- An HTTP failure as axios reports it: either a non-2xx status (axios
throws, with `error.response.status` and `error.response.data`) or a
transport/timeout error (no `error.response`). -/
inductive HttpErr where
  | status (code : Nat) (body : String)
  | transport (msg : String)
deriving DecidableEq, Repr

/-- The GitHub contents-API document: `response.data.content` (base64) and
`response.data.sha`.  An empty `content` models the JS falsy check. -/
structure GhFile where
  content : String
  sha : String
deriving DecidableEq, Repr

/-- Successful PUT response: the code reads `response.data.commit.html_url`. -/
structure PutOk where
  commitUrl : String
deriving DecidableEq, Repr

/-- The body of the GitHub write request built by `pushToGitHub`
(src/index.js lines 244-252): message, base64 content, branch and the
optional revision token `sha`. -/
structure PutRequest where
  message : String
  content : String
  branch : String
  sha : Option String
deriving DecidableEq, Repr

/-- A Node filesystem error: `error.code` (e.g. "EROFS") and message. -/
structure FsError where
  code : String
  msg : String
deriving DecidableEq, Repr

/-- The external world of one invocation: the wall clock, every HTTP
response, each filesystem outcome, and the `JSON.parse` builtin.  `run()`
is deterministic given this record. -/
structure Env where
  now : String
  priceResp : String → Except HttpErr (Option PriceApiData)
  githubToken : String
  githubRepo : String
  githubOwner : String
  ghGetDataResp : Except HttpErr GhFile
  ghGetShaResp : Except HttpErr GhFile
  parseJsonBytes : List Nat → Option Dataset
  parseJsonStr : String → Option Dataset
  localReadResp : Except String String
  accessResp : Except FsError Unit
  mkdirResp : Except FsError Unit
  writeFileResp : Except FsError Unit
  putResp : PutRequest → Except HttpErr PutOk

/-- The UTF-8 bytes of one character (model of Node's utf8 encoding). -/
def charUtf8 (c : Char) : List Nat :=
  let n := c.toNat
  if n < 128 then [n]
  else if n < 2048 then [192 + n / 64, 128 + n % 64]
  else if n < 65536 then [224 + n / 4096, 128 + (n / 64) % 64, 128 + n % 64]
  else [240 + n / 262144, 128 + (n / 4096) % 64, 128 + (n / 64) % 64, 128 + n % 64]

/-- UTF-8 bytes of a string. -/
def utf8Bytes (s : String) : List Nat :=
  (s.data.map charUtf8).flatten

/-- The base64 alphabet. -/
def base64Alphabet : List Char :=
  "ABCDEFGHIJKLMNOPQRSTUVWXYZabcdefghijklmnopqrstuvwxyz0123456789+/".data

/-- The base64 digit for a 6-bit value. -/
def b64Char (n : Nat) : Char :=
  base64Alphabet.getD n 'A'

/-- Base64-encode a byte list (model of `Buffer.toString('base64')`). -/
def base64EncodeBytes : List Nat → List Char
  | b1 :: b2 :: b3 :: rest =>
      let n := b1 * 65536 + b2 * 256 + b3
      b64Char (n / 262144) :: b64Char (n / 4096 % 64) :: b64Char (n / 64 % 64) ::
        b64Char (n % 64) :: base64EncodeBytes rest
  | [b1, b2] => [b64Char (b1 / 4), b64Char (b1 % 4 * 16 + b2 / 16), b64Char (b2 % 16 * 4), '=']
  | [b1] => [b64Char (b1 / 4), b64Char (b1 % 4 * 16), '=', '=']
  | [] => []

/-- Base64-encode a string's UTF-8 bytes (`Buffer.from(s).toString('base64')`). -/
def base64Encode (s : String) : String :=
  String.mk (base64EncodeBytes (utf8Bytes s))

/-- The 6-bit value of a base64 digit, `none` for other characters. -/
def b64Val (c : Char) : Option Nat :=
  base64Alphabet.findIdx? (fun d => d == c)

/-- Regroup 6-bit values into bytes (base64 decoding core). -/
def sextetsToBytes : List Nat → List Nat
  | a :: b :: c :: d :: rest =>
      (a * 4 + b / 16) :: (b % 16 * 16 + c / 4) :: (c % 4 * 64 + d) :: sextetsToBytes rest
  | [a, b, c] => [a * 4 + b / 16, b % 16 * 16 + c / 4]
  | [a, b] => [a * 4 + b / 16]
  | _ => []

/-- Decode a base64 string to bytes, skipping non-alphabet characters as
Node's `Buffer.from(s, 'base64')` does. -/
def base64DecodeBytes (s : String) : List Nat :=
  sextetsToBytes (s.data.filterMap b64Val)

/-- A JSON string literal (model of `JSON.stringify` on strings; escapes
quote and backslash). -/
def jstr (s : String) : String :=
  "\"" ++ String.join (s.data.map (fun c =>
    if c = '"' then "\\\"" else if c = '\\' then "\\\\" else String.singleton c)) ++ "\""

/-- A JSON number literal for the rational model of a JS number. -/
def jnum (q : ℚ) : String :=
  toString q

/-- A JSON object from already-serialized field values. -/
def jsonObj (fields : List (String × String)) : String :=
  "\x7b" ++ String.intercalate "," (fields.map (fun kv => jstr kv.1 ++ ":" ++ kv.2)) ++ "\x7d"

/-- A JSON array from already-serialized elements. -/
def jsonArr (xs : List String) : String :=
  "[" ++ String.intercalate "," xs ++ "]"

/-- Serialization of one Sample (field order as constructed in the code). -/
def stringifySample (s : Sample) : String :=
  jsonObj [("region", jstr s.region), ("timestamp", jstr s.timestamp),
    ("retailPrice", jnum s.retailPrice), ("unitPrice", jnum s.unitPrice),
    ("currencyCode", jstr s.currencyCode), ("location", jstr s.location),
    ("effectiveStartDate", jstr s.effectiveStartDate),
    ("meterName", jstr s.meterName), ("skuName", jstr s.skuName)]

/-- Serialization of one Run Record. -/
def stringifyRecord (r : RunRecord) : String :=
  jsonObj [("timestamp", jstr r.timestamp),
    ("regions", jsonObj (r.regions.map (fun kv => (kv.1, stringifySample kv.2))))]

/-- Serialization of a Dataset: the model of `JSON.stringify(allData, null, 2)`
up to insignificant whitespace. -/
def stringifyDataset (d : Dataset) : String :=
  jsonArr (d.map stringifyRecord)

/-- `fetchPriceData(region)` (src/index.js lines 58-91): on a response whose
`data.Items` is non-empty, take `Items[0]` into a Sample stamped with the
region and the current time; an empty/missing items list or any axios error
yields `null` (here `none`) — the whole body is under `try/catch`. -/
def fetchPriceData (env : Env) (region : String) : Option Sample :=
  match env.priceResp region with
  | .error _ => none
  | .ok none => none
  | .ok (some d) =>
    match d.Items with
    | [] => none
    | item :: _ =>
      some { region := region, timestamp := env.now,
             retailPrice := item.retailPrice, unitPrice := item.unitPrice,
             currencyCode := item.currencyCode, location := item.location,
             effectiveStartDate := item.effectiveStartDate,
             meterName := item.meterName, skuName := item.skuName }

/-- Whether the three GitHub credentials are configured: the JS guard
`!githubToken || !githubRepo || !githubOwner` (empty string models a
missing/falsy environment variable). -/
def hasCreds (env : Env) : Bool :=
  !(env.githubToken == "" || env.githubRepo == "" || env.githubOwner == "")

/-- `fetchDataFromGitHub()` (src/index.js lines 113-151): missing
credentials skip the fetch; a successful GET decodes the base64 `content`
and parses it; a falsy `content`, a parse failure, a 404 and every other
GET error all return the empty dataset. -/
def fetchDataFromGitHub (env : Env) : Dataset :=
  if hasCreds env then
    match env.ghGetDataResp with
    | .ok f =>
      if f.content == "" then []
      else
        match env.parseJsonBytes (base64DecodeBytes f.content) with
        | some d => d
        | none => []
    | .error _ => []
  else []

/-- The local-file fallback branch of `loadExistingData` (src/index.js lines
101-110): read the log file and parse it; any read or parse failure yields
the empty dataset. -/
def localFallback (env : Env) : Dataset :=
  match env.localReadResp with
  | .ok s =>
    match env.parseJsonStr s with
    | some d => d
    | none => []
  | .error _ => []

/-- `loadExistingData()` (src/index.js lines 93-111): prefer the GitHub
dataset when non-empty, otherwise fall back to the local file. -/
def loadExistingData (env : Env) : Dataset :=
  let githubData := fetchDataFromGitHub env
  if githubData.length > 0 then githubData
  else localFallback env

/-- `ensureDataDirectory()` (src/index.js lines 31-50): if `fs.access`
succeeds the directory exists; otherwise `mkdir`, swallowing an `EROFS`
failure and rethrowing any other `mkdir` error. -/
def ensureDataDirectory (env : Env) : Except FsError Unit :=
  match env.accessResp with
  | .ok _ => .ok ()
  | .error _ =>
    match env.mkdirResp with
    | .ok _ => .ok ()
    | .error e => if e.code == "EROFS" then .ok () else .error e

/-- Outcome of the local save (`saveData`): the written file content on
success, a read-only skip, or a logged warning. -/
inductive SaveOutcome where
  | savedLocally (written : String)
  | skippedReadonly
  | warnedFailure (msg : String)
deriving DecidableEq, Repr

/-- `saveData(newData)` (src/index.js lines 153-166): ensure the directory,
then write `JSON.stringify([newData], null, 2)` — only the current run's
record.  An `EROFS` failure is a skip, any other failure a warning; nothing
escapes the `try/catch`. -/
def saveData (env : Env) (newData : RunRecord) : SaveOutcome :=
  match ensureDataDirectory env with
  | .error e => if e.code == "EROFS" then .skippedReadonly else .warnedFailure e.msg
  | .ok _ =>
    match env.writeFileResp with
    | .ok _ => .savedLocally (stringifyDataset [newData])
    | .error e => if e.code == "EROFS" then .skippedReadonly else .warnedFailure e.msg

/-- The axios error message read by the catch blocks. -/
def axiosErrMsg : HttpErr → String
  | .transport m => m
  | .status c _ => "Request failed with status code " ++ toString c

/-- `error.response.status` when available. -/
def errStatus : HttpErr → Option Nat
  | .status c _ => some c
  | .transport _ => none

/-- `error.response.data` when available. -/
def errBody : HttpErr → Option String
  | .status _ b => some b
  | .transport _ => none

/-- Outcome of `pushToGitHub`: credentials missing, a successful PUT, or a
caught-and-logged failure.  `pushed`/`failedLogged` record the PUT request
that was issued (if any) so the embedding can observe the write effect. -/
inductive PushOutcome where
  | skippedNoCreds
  | pushed (req : PutRequest) (entries : Nat) (commitUrl : String)
  | failedLogged (attempted : Option PutRequest) (msg : String)
      (statusCode : Option Nat) (body : Option String)
deriving Repr

/-- The write request built by `pushToGitHub` (src/index.js lines 239-252):
commit message embedding the timestamp, the full dataset serialized and
base64-encoded, branch `main`, and the revision token when one was found. -/
def mkPutRequest (now : String) (allData : Dataset) (sha : Option String) : PutRequest :=
  { message := "Update price data: " ++ now,
    content := base64Encode (stringifyDataset allData),
    branch := "main",
    sha := sha }

/-- The PUT step of `pushToGitHub` (src/index.js lines 254-264): issue the
request; a success logs the commit, an error falls to the outer catch. -/
def putFile (env : Env) (allData : Dataset) (sha : Option String) : PushOutcome :=
  let req := mkPutRequest env.now allData sha
  match env.putResp req with
  | .ok r => .pushed req allData.length r.commitUrl
  | .error e => .failedLogged (some req) (axiosErrMsg e) (errStatus e) (errBody e)

/-- `pushToGitHub(allData)` (src/index.js lines 202-273): skip without
credentials; GET the current file for its `sha` (404 means create, any
other GET error rethrows into the outer catch and no PUT is issued); then
PUT the full replacement content.  Every failure is caught and logged. -/
def pushToGitHub (env : Env) (allData : Dataset) : PushOutcome :=
  if hasCreds env then
    match env.ghGetShaResp with
    | .ok f => putFile env allData (if f.sha == "" then none else some f.sha)
    | .error e =>
      if errStatus e = some 404 then putFile env allData none
      else .failedLogged none (axiosErrMsg e) (errStatus e) (errBody e)
  else .skippedNoCreds

/-- The PUT request recorded in a push outcome, `none` when no PUT was
issued — the observation of the write effect. -/
def issuedRequest : PushOutcome → Option PutRequest
  | .pushed req _ _ => some req
  | .failedLogged a _ _ _ => a
  | .skippedNoCreds => none

/-- The per-region loop of `run()` (src/index.js lines 177-188): attempt
each region once, in declaration order, collecting successful Samples under
their region key; also returns the list of attempted region names. -/
def regionLoop (env : Env) : List Region → List (String × Sample) × List String
  | [] => ([], [])
  | r :: rest =>
    let attempt := fetchPriceData env r.name
    let tail := regionLoop env rest
    match attempt with
    | some s => ((r.name, s) :: tail.1, r.name :: tail.2)
    | none => (tail.1, r.name :: tail.2)

/-- Everything `run()` produces: the new Run Record, the loaded prior
dataset, the dataset pushed to the remote store, the attempted regions, the
outcomes of the local and remote saves, and the banner log lines. -/
structure RunResult where
  record : RunRecord
  loaded : Dataset
  pushedData : Dataset
  attempts : List String
  saveOutcome : SaveOutcome
  pushOutcome : PushOutcome
  log : List String

/-- `run()` (src/index.js lines 168-200): collect the per-region samples
into one Run Record, load the existing dataset, append the record, save the
record locally, and push the full updated dataset to GitHub. -/
def run (env : Env) : RunResult :=
  let collected := regionLoop env REGIONS
  let results : RunRecord := { timestamp := env.now, regions := collected.1 }
  let existingData := loadExistingData env
  let newData := existingData ++ [results]
  let saveOut := saveData env results
  let pushOut := pushToGitHub env newData
  { record := results, loaded := existingData, pushedData := newData,
    attempts := collected.2, saveOutcome := saveOut, pushOutcome := pushOut,
    log := ["=== Azure Spot Price Checker Started ===", "=== Price Check Complete ==="] }

/-- One point of a region's time series in the processed document
(`scripts/process-data.js` lines 39-44). -/
structure PricePoint where
  timestamp : String
  retailPrice : ℚ
  unitPrice : ℚ
  currencyCode : String
deriving DecidableEq, Repr

/-- A region's series while grouping (`name`, `displayName`, `data`). -/
structure RegionSeries where
  name : String
  displayName : String
  data : List PricePoint
deriving DecidableEq, Repr

/-- Per-region statistics (`scripts/process-data.js` lines 53-59). -/
structure RegionStats where
  count : Nat
  current : Option ℚ
  min : Option ℚ
  max : Option ℚ
  avg : Option ℚ
deriving DecidableEq, Repr

/-- A region's entry in the final processed document: series plus stats. -/
structure RegionOut where
  name : String
  displayName : String
  data : List PricePoint
  stats : RegionStats
deriving DecidableEq, Repr

/-- The `dateRange` of the summary (first and last record timestamps). -/
structure DateRange where
  start : Option String
  «end» : Option String
deriving DecidableEq, Repr

/-- The `summary` block of the processed document. -/
structure Summary where
  totalEntries : Nat
  dateRange : DateRange
deriving DecidableEq, Repr

/-- The Aggregate Summary (`processedData` in `scripts/process-data.js`).
The `regions` object is an association list in key-insertion order. -/
structure ProcessedData where
  lastUpdated : String
  regions : List (String × RegionOut)
  summary : Summary
deriving DecidableEq, Repr

/-- The data point pushed for one sample (`scripts/process-data.js` lines
39-44): the record's timestamp with the sample's price fields. -/
def pointOf (entryTs : String) (s : Sample) : PricePoint :=
  { timestamp := entryTs, retailPrice := s.retailPrice,
    unitPrice := s.unitPrice, currencyCode := s.currencyCode }

/-- One step of the grouping loop (`scripts/process-data.js` lines 30-45):
if the region already has a bucket, append the point to it, otherwise
create the bucket (displayName from the sample's `location`) at the end. -/
def addSample (acc : List (String × RegionSeries)) (entryTs : String)
    (rname : String) (s : Sample) : List (String × RegionSeries) :=
  if acc.any (fun kv => kv.1 == rname) then
    acc.map (fun kv =>
      if kv.1 == rname then (kv.1, { kv.2 with data := kv.2.data ++ [pointOf entryTs s] })
      else kv)
  else
    acc ++ [(rname, { name := rname, displayName := s.location, data := [pointOf entryTs s] })]

/-- The grouping pass (`scripts/process-data.js` lines 28-46): fold over
all records and, within each record, over its regions in key order. -/
def groupRegions (d : Dataset) : List (String × RegionSeries) :=
  d.foldl (fun acc entry =>
    entry.regions.foldl (fun acc2 kv => addSample acc2 entry.timestamp kv.1 kv.2) acc) []

/-- The statistics block for one region's price list (`scripts/
process-data.js` lines 53-59): count, last element, `Math.min`/`Math.max`
folds and `reduce((a,b) => a+b, 0) / length`, all `null` when empty. -/
def computeStats (prices : List ℚ) : RegionStats :=
  { count := prices.length,
    current := prices.getLast?,
    min := match prices with
      | [] => none
      | p :: ps => some (ps.foldl Min.min p),
    max := match prices with
      | [] => none
      | p :: ps => some (ps.foldl Max.max p),
    avg := match prices with
      | [] => none
      | _ => some (prices.foldl (· + ·) 0 / prices.length) }

/-- `processData` (`scripts/process-data.js` lines 16-60), the aggregator:
summary over the raw dataset, grouping by region, then per-region stats.
`lastUpdated` is the wall clock, made an explicit argument here. -/
def processData (now : String) (priceData : Dataset) : ProcessedData :=
  let summary : Summary :=
    { totalEntries := priceData.length,
      dateRange := { start := (priceData.head?).map RunRecord.timestamp,
                     «end» := (priceData.getLast?).map RunRecord.timestamp } }
  let grouped := groupRegions priceData
  let regions := grouped.map (fun kv =>
    (kv.1, { name := kv.2.name, displayName := kv.2.displayName, data := kv.2.data,
             stats := computeStats (kv.2.data.map PricePoint.retailPrice) }))
  { lastUpdated := now, regions := regions, summary := summary }

/-- A concrete pricing row for East US 2 (retailPrice 0.1234). -/
def itemA : PriceItem :=
  { retailPrice := 1234/10000, unitPrice := 1234/10000, currencyCode := "USD",
    location := "US East 2", effectiveStartDate := "2025-01-01T00:00:00Z",
    meterName := "D16s v5 Spot", skuName := "D16s v5 Spot" }

/-- A concrete pricing row for North Europe (retailPrice 0.2345). -/
def itemB : PriceItem :=
  { retailPrice := 2345/10000, unitPrice := 2345/10000, currencyCode := "EUR",
    location := "EU North", effectiveStartDate := "2025-01-01T00:00:00Z",
    meterName := "D16s v5 Spot", skuName := "D16s v5 Spot" }

/-- A concrete environment: both region fetches succeed, GitHub holds no
prior file (404 on both GETs), the local file is absent, the filesystem is
writable and the PUT succeeds. -/
def envA : Env :=
  { now := "2025-06-01T00:00:00Z",
    priceResp := fun r =>
      if r == "eastus2" then .ok (some ⟨[itemA]⟩) else .ok (some ⟨[itemB]⟩),
    githubToken := "token", githubRepo := "repo", githubOwner := "owner",
    ghGetDataResp := .error (.status 404 "Not Found"),
    ghGetShaResp := .error (.status 404 "Not Found"),
    parseJsonBytes := fun _ => none,
    parseJsonStr := fun _ => none,
    localReadResp := .error "ENOENT",
    accessResp := .ok (), mkdirResp := .ok (), writeFileResp := .ok (),
    putResp := fun _ => .ok ⟨"https://example.invalid/commit/1"⟩ }

/-- A concrete degraded environment: the price fetches time out, the local
filesystem is read-only and the remote PUT is rejected with a 409. -/
def envErr : Env :=
  { envA with
      priceResp := fun _ => .error (.transport "timeout of 30000ms exceeded"),
      accessResp := .error ⟨"ENOENT", "no such file or directory"⟩,
      mkdirResp := .error ⟨"EROFS", "read-only file system"⟩,
      writeFileResp := .error ⟨"EROFS", "read-only file system"⟩,
      putResp := fun _ => .error (.status 409 "conflict") }

/-- A concrete environment in which the revision-token GET fails with a
non-404 server error. -/
def envC3 : Env :=
  { envA with ghGetShaResp := .error (.status 500 "boom") }

/-- `envC3` with the PUT and the revision read both answering a 409
conflict. -/
def envC3b : Env :=
  { envC3 with
      ghGetShaResp := .error (.status 409 "conflict"),
      putResp := fun _ => .error (.status 409 "conflict") }

/-- A sample for region `eastus2` carrying the given price. -/
def sampleP (p : ℚ) : Sample :=
  { region := "eastus2", timestamp := "t", retailPrice := p, unitPrice := p,
    currencyCode := "USD", location := "East US 2",
    effectiveStartDate := "", meterName := "", skuName := "" }

/-- Scenario E of the spec: three Run Records in which region `eastus2`
appears with prices 1.0, 2.0 and 3.0. -/
def scenarioE : Dataset :=
  [⟨"t1", [("eastus2", sampleP 1)]⟩,
   ⟨"t2", [("eastus2", sampleP 2)]⟩,
   ⟨"t3", [("eastus2", sampleP 3)]⟩]

/-- The points of `acc`'s bucket for region `r` (first entry with that key,
empty when absent) — the observation used to specify `groupRegions`. -/
def bucketData (acc : List (String × RegionSeries)) (r : String) : List PricePoint :=
  match acc.find? (fun kv => kv.1 == r) with
  | some kv => kv.2.data
  | none => []

/-- The points a single Run Record contributes to region `r`. -/
def entryPoints (r : String) (e : RunRecord) : List PricePoint :=
  e.regions.filterMap (fun kv => if kv.1 = r then some (pointOf e.timestamp kv.2) else none)

/-- The points the whole Dataset contributes to region `r`, in
chronological order — the specification of `bucketData ∘ groupRegions`. -/
def specPoints (d : Dataset) (r : String) : List PricePoint :=
  (d.map (entryPoints r)).flatten

/-- The first region entry of the aggregate computed from Scenario E. -/
def kvE : String × RegionOut :=
  ((processData "x" scenarioE).regions).headD ("", ⟨"", "", [], computeStats []⟩)

/-- The first region entry of the Run Record produced in `envA`. -/
def kvR : String × Sample :=
  ((run envA).record.regions).headD ("", sampleP 0)

/-! ## Helper lemmas -/

theorem regionLoop_fst (env : Env) (rs : List Region) :
    (regionLoop env rs).1
      = rs.filterMap (fun r => (fetchPriceData env r.name).map (fun s => (r.name, s))) := by
  induction rs with
  | nil => rfl
  | cons r rest ih =>
    cases h : fetchPriceData env r.name <;> simp [regionLoop, h, ih]

theorem regionLoop_snd (env : Env) (rs : List Region) :
    (regionLoop env rs).2 = rs.map Region.name := by
  induction rs with
  | nil => rfl
  | cons r rest ih =>
    cases h : fetchPriceData env r.name <;> simp [regionLoop, h, ih]

theorem exists_mem_region_filterMap_iff (env : Env) (rs : List Region) (k : String) :
    (∃ s, (k, s) ∈ rs.filterMap (fun r => (fetchPriceData env r.name).map (fun s => (r.name, s))))
      ↔ k ∈ rs.map Region.name ∧ (fetchPriceData env k).isSome = true := by
  constructor
  · rintro ⟨s, hs⟩
    rw [List.mem_filterMap] at hs
    obtain ⟨r, hr, hf⟩ := hs
    cases h : fetchPriceData env r.name with
    | none => rw [h] at hf; simp at hf
    | some v =>
      rw [h] at hf
      simp only [Option.map_some', Option.some.injEq, Prod.mk.injEq] at hf
      obtain ⟨hk, -⟩ := hf
      subst hk
      exact ⟨List.mem_map_of_mem Region.name hr, by rw [h]; rfl⟩
  · rintro ⟨hk, hsome⟩
    rw [List.mem_map] at hk
    obtain ⟨r, hr, rfl⟩ := hk
    cases h : fetchPriceData env r.name with
    | none => rw [h] at hsome; simp at hsome
    | some v =>
      exact ⟨v, List.mem_filterMap.2 ⟨r, hr, by rw [h]; rfl⟩⟩

theorem fetchPriceData_region_eq (env : Env) (n : String) (v : Sample)
    (h : fetchPriceData env n = some v) : v.region = n := by
  cases hr : env.priceResp n with
  | error e => simp [fetchPriceData, hr] at h
  | ok d =>
    cases d with
    | none => simp [fetchPriceData, hr] at h
    | some pd =>
      cases hi : pd.Items with
      | nil => simp [fetchPriceData, hr, hi] at h
      | cons item rest =>
        simp only [fetchPriceData, hr, hi, Option.some.injEq] at h
        subst h
        rfl

theorem find?_append_or {α : Type} (l1 l2 : List α) (p : α → Bool) :
    (l1 ++ l2).find? p = ((l1.find? p).orElse (fun _ => l2.find? p)) := by
  induction l1 with
  | nil => simp
  | cons a t ih =>
    by_cases h : p a <;> simp [List.find?_cons, h, ih]

theorem bucketData_addSample (acc : List (String × RegionSeries)) (ts rname : String)
    (s : Sample) (r : String) :
    bucketData (addSample acc ts rname s) r
      = if r = rname then bucketData acc r ++ [pointOf ts s] else bucketData acc r := by
  unfold addSample
  by_cases hany : acc.any (fun kv => kv.1 == rname)
  · rw [if_pos hany]
    unfold bucketData
    rw [List.find?_map]
    have hp : ((fun kv : String × RegionSeries => kv.1 == r) ∘
        (fun kv : String × RegionSeries =>
          if kv.1 == rname then (kv.1, { kv.2 with data := kv.2.data ++ [pointOf ts s] })
          else kv)) = fun kv : String × RegionSeries => kv.1 == r := by
      funext kv
      by_cases h : kv.1 = rname <;> simp [h]
    rw [hp]
    cases hacc : acc.find? (fun kv => kv.1 == r) with
    | none =>
      by_cases hr : r = rname
      · exfalso
        obtain ⟨kv0, hmem, hkv0⟩ := List.any_eq_true.1 hany
        have : ¬(kv0.1 == r) := List.find?_eq_none.1 hacc kv0 hmem
        rw [hr] at this
        exact this hkv0
      · simp [hr]
    | some kv0 =>
      have hkey := List.find?_some hacc
      have hkeyEq : kv0.1 = r := by simpa using hkey
      by_cases hr : r = rname <;> simp [hkeyEq, hr]
  · rw [if_neg hany]
    unfold bucketData
    rw [find?_append_or]
    cases hacc : acc.find? (fun kv => kv.1 == r) with
    | none =>
      by_cases hr : r = rname
      · subst hr
        simp
      · have : ¬(rname == r) := by simpa using fun h => hr h.symm
        simp [this, hr]
    | some kv0 =>
      have hkey := List.find?_some hacc
      have hkeyEq : kv0.1 = r := by simpa using hkey
      have hr : ¬(r = rname) := by
        intro h
        have : acc.any (fun kv => kv.1 == rname) :=
          List.any_eq_true.2 ⟨kv0, List.mem_of_find?_eq_some hacc, by rw [hkeyEq, h]; simp⟩
        exact hany this
      simp [hr]

theorem keys_addSample (acc : List (String × RegionSeries)) (ts rname : String) (s : Sample) :
    (addSample acc ts rname s).map Prod.fst
      = if acc.any (fun kv => kv.1 == rname) then acc.map Prod.fst
        else acc.map Prod.fst ++ [rname] := by
  unfold addSample
  by_cases hany : acc.any (fun kv => kv.1 == rname)
  · rw [if_pos hany, if_pos hany, List.map_map]
    refine List.map_congr_left ?_
    intro kv _
    by_cases h : kv.1 = rname <;> simp [h]
  · rw [if_neg hany, if_neg hany]
    simp

theorem nodup_keys_addSample (acc : List (String × RegionSeries)) (ts rname : String)
    (s : Sample) (h : (acc.map Prod.fst).Nodup) :
    ((addSample acc ts rname s).map Prod.fst).Nodup := by
  rw [keys_addSample]
  by_cases hany : acc.any (fun kv => kv.1 == rname)
  · rwa [if_pos hany]
  · rw [if_neg hany, List.nodup_append]
    refine ⟨h, List.nodup_singleton _, ?_⟩
    intro x hx hx2
    rw [List.mem_singleton] at hx2
    subst hx2
    rw [List.mem_map] at hx
    obtain ⟨kv, hkv, hfst⟩ := hx
    exact hany (List.any_eq_true.2 ⟨kv, hkv, by rw [hfst]; simp⟩)

theorem bucketData_foldRegions (ts : String) (l : List (String × Sample))
    (acc : List (String × RegionSeries)) (r : String) :
    bucketData (l.foldl (fun a kv => addSample a ts kv.1 kv.2) acc) r
      = bucketData acc r
        ++ l.filterMap (fun kv => if kv.1 = r then some (pointOf ts kv.2) else none) := by
  induction l generalizing acc with
  | nil => simp
  | cons kv rest ih =>
    rw [List.foldl_cons, ih, bucketData_addSample]
    by_cases h : r = kv.1
    · rw [if_pos h, List.filterMap_cons, if_pos h.symm, List.append_assoc]
      rfl
    · rw [if_neg h, List.filterMap_cons, if_neg (fun hh => h hh.symm)]

theorem nodup_keys_foldRegions (ts : String) (l : List (String × Sample))
    (acc : List (String × RegionSeries)) (h : (acc.map Prod.fst).Nodup) :
    ((l.foldl (fun a kv => addSample a ts kv.1 kv.2) acc).map Prod.fst).Nodup := by
  induction l generalizing acc with
  | nil => exact h
  | cons kv rest ih =>
    rw [List.foldl_cons]
    exact ih _ (nodup_keys_addSample acc ts kv.1 kv.2 h)

theorem bucketData_foldDataset (D : Dataset) (acc : List (String × RegionSeries)) (r : String) :
    bucketData (D.foldl (fun acc entry =>
        entry.regions.foldl (fun a kv => addSample a entry.timestamp kv.1 kv.2) acc) acc) r
      = bucketData acc r ++ specPoints D r := by
  induction D generalizing acc with
  | nil => simp [specPoints]
  | cons e rest ih =>
    rw [List.foldl_cons, ih, bucketData_foldRegions]
    simp [specPoints, entryPoints, List.append_assoc]

theorem nodup_keys_foldDataset (D : Dataset) (acc : List (String × RegionSeries))
    (h : (acc.map Prod.fst).Nodup) :
    ((D.foldl (fun acc entry =>
        entry.regions.foldl (fun a kv => addSample a entry.timestamp kv.1 kv.2) acc) acc).map
      Prod.fst).Nodup := by
  induction D generalizing acc with
  | nil => exact h
  | cons e rest ih =>
    rw [List.foldl_cons]
    exact ih _ (nodup_keys_foldRegions e.timestamp e.regions acc h)

theorem bucketData_groupRegions (D : Dataset) (r : String) :
    bucketData (groupRegions D) r = specPoints D r := by
  have h := bucketData_foldDataset D [] r
  simpa [groupRegions, bucketData] using h

theorem nodup_keys_groupRegions (D : Dataset) :
    ((groupRegions D).map Prod.fst).Nodup := by
  have h := nodup_keys_foldDataset D [] (by simp)
  simpa [groupRegions] using h

theorem foldl_min_le_init (p : ℚ) (ps : List ℚ) : ps.foldl Min.min p ≤ p := by
  induction ps generalizing p with
  | nil => exact le_refl p
  | cons c cs ih => exact le_trans (ih (min p c)) (min_le_left p c)

theorem foldl_min_le_mem (p x : ℚ) (ps : List ℚ) (hx : x ∈ ps) :
    ps.foldl Min.min p ≤ x := by
  induction ps generalizing p with
  | nil => cases hx
  | cons c cs ih =>
    rw [List.foldl_cons]
    rcases List.mem_cons.1 hx with h | h
    · subst h
      exact le_trans (foldl_min_le_init (min p x) cs) (min_le_right p x)
    · exact ih (min p c) h

theorem foldl_min_mem (p : ℚ) (ps : List ℚ) : ps.foldl Min.min p ∈ p :: ps := by
  induction ps generalizing p with
  | nil => simp
  | cons c cs ih =>
    rw [List.foldl_cons]
    rcases List.mem_cons.1 (ih (min p c)) with h1 | h1
    · rcases min_choice p c with hm | hm
      · rw [h1, hm]; simp
      · rw [h1, hm]; simp
    · simp only [List.mem_cons]
      exact Or.inr (Or.inr h1)

theorem le_foldl_max_init (p : ℚ) (ps : List ℚ) : p ≤ ps.foldl Max.max p := by
  induction ps generalizing p with
  | nil => exact le_refl p
  | cons c cs ih => exact le_trans (le_max_left p c) (ih (max p c))

theorem le_foldl_max_mem (p x : ℚ) (ps : List ℚ) (hx : x ∈ ps) :
    x ≤ ps.foldl Max.max p := by
  induction ps generalizing p with
  | nil => cases hx
  | cons c cs ih =>
    rw [List.foldl_cons]
    rcases List.mem_cons.1 hx with h | h
    · subst h
      exact le_trans (le_max_right p x) (le_foldl_max_init (max p x) cs)
    · exact ih (max p c) h

theorem foldl_max_mem (p : ℚ) (ps : List ℚ) : ps.foldl Max.max p ∈ p :: ps := by
  induction ps generalizing p with
  | nil => simp
  | cons c cs ih =>
    rw [List.foldl_cons]
    rcases List.mem_cons.1 (ih (max p c)) with h1 | h1
    · rcases max_choice p c with hm | hm
      · rw [h1, hm]; simp
      · rw [h1, hm]; simp
    · simp only [List.mem_cons]
      exact Or.inr (Or.inr h1)

theorem computeStats_spec (prices : List ℚ) :
    (computeStats prices).count = prices.length
  ∧ (computeStats prices).current = prices.getLast?
  ∧ (∀ m, (computeStats prices).min = some m → m ∈ prices ∧ ∀ x ∈ prices, m ≤ x)
  ∧ (∀ m, (computeStats prices).max = some m → m ∈ prices ∧ ∀ x ∈ prices, x ≤ m)
  ∧ (computeStats prices).avg
      = (if prices = [] then none else some (prices.sum / prices.length)) := by
  refine ⟨rfl, rfl, ?_, ?_, ?_⟩
  · intro m hm
    cases prices with
    | nil => simp [computeStats] at hm
    | cons p ps =>
      simp only [computeStats, Option.some.injEq] at hm
      subst hm
      refine ⟨foldl_min_mem p ps, ?_⟩
      intro x hx
      rcases List.mem_cons.1 hx with h | h
      · subst h
        exact foldl_min_le_init x ps
      · exact foldl_min_le_mem p x ps h
  · intro m hm
    cases prices with
    | nil => simp [computeStats] at hm
    | cons p ps =>
      simp only [computeStats, Option.some.injEq] at hm
      subst hm
      refine ⟨foldl_max_mem p ps, ?_⟩
      intro x hx
      rcases List.mem_cons.1 hx with h | h
      · subst h
        exact le_foldl_max_init x ps
      · exact le_foldl_max_mem p x ps h
  · cases prices with
    | nil => rfl
    | cons p ps =>
      rw [if_neg (List.cons_ne_nil p ps)]
      show some _ = some _
      rw [List.sum_eq_foldl]

/-! ## Claim theorems -/

/-- C1: every invocation of `run()` pushes exactly the previously loaded
Dataset with one new Run Record appended at the end (prior records
unchanged and in order, length N becomes N+1), and the new record's
`regions` mapping has a key exactly for each configured region whose fetch
succeeded — failed regions are absent. -/
theorem run_appends_exactly_one_record (env : Env) :
    (run env).loaded = loadExistingData env
  ∧ (run env).pushedData = loadExistingData env ++ [(run env).record]
  ∧ (run env).pushedData.length = (loadExistingData env).length + 1
  ∧ (run env).record.regions
      = REGIONS.filterMap (fun r => (fetchPriceData env r.name).map (fun s => (r.name, s)))
  ∧ (∀ k : String, (∃ s, (k, s) ∈ (run env).record.regions)
      ↔ (k ∈ REGIONS.map Region.name ∧ (fetchPriceData env k).isSome = true)) := by
  refine ⟨rfl, rfl, by simp [run], ?_, ?_⟩
  · exact regionLoop_fst env REGIONS
  · intro k
    show (∃ s, (k, s) ∈ (regionLoop env REGIONS).1) ↔ _
    rw [regionLoop_fst]
    exact exists_mem_region_filterMap_iff env REGIONS k

/-- C5: a fetch response with a non-empty items list yields a Sample whose
price and descriptive fields equal those of `items[0]` exactly; an empty
items list, a missing body, or any HTTP/transport error yields the failure
marker `none`, and `fetchPriceData` never raises (it is total). -/
theorem fetchPriceData_spec (env : Env) (region : String) :
    (∀ d item rest, env.priceResp region = .ok (some d) → d.Items = item :: rest →
       fetchPriceData env region
         = some { region := region, timestamp := env.now,
                  retailPrice := item.retailPrice, unitPrice := item.unitPrice,
                  currencyCode := item.currencyCode, location := item.location,
                  effectiveStartDate := item.effectiveStartDate,
                  meterName := item.meterName, skuName := item.skuName })
  ∧ (∀ d, env.priceResp region = .ok (some d) → d.Items = [] →
       fetchPriceData env region = none)
  ∧ (env.priceResp region = .ok none → fetchPriceData env region = none)
  ∧ (∀ e, env.priceResp region = .error e → fetchPriceData env region = none) := by
  refine ⟨?_, ?_, ?_, ?_⟩
  · intro d item rest hresp hitems
    simp [fetchPriceData, hresp, hitems]
  · intro d hresp hitems
    simp [fetchPriceData, hresp, hitems]
  · intro hresp
    simp [fetchPriceData, hresp]
  · intro e hresp
    simp [fetchPriceData, hresp]

/-- C5 witness: in `envA` the fetch for `eastus2` returns the Sample copied
from `items[0]`, and in `envErr` (transport error) it returns `none`. -/
theorem fetchPriceData_spec_witness :
    envA.priceResp "eastus2" = .ok (some ⟨[itemA]⟩)
  ∧ fetchPriceData envA "eastus2"
      = some { region := "eastus2", timestamp := envA.now,
               retailPrice := itemA.retailPrice, unitPrice := itemA.unitPrice,
               currencyCode := itemA.currencyCode, location := itemA.location,
               effectiveStartDate := itemA.effectiveStartDate,
               meterName := itemA.meterName, skuName := itemA.skuName }
  ∧ fetchPriceData envErr "eastus2" = none :=
  ⟨rfl,
   (fetchPriceData_spec envA "eastus2").1 ⟨[itemA]⟩ itemA [] rfl rfl,
   (fetchPriceData_spec envErr "eastus2").2.2.2 (.transport "timeout of 30000ms exceeded") rfl⟩

/-- C10: in every run the configured regions are attempted exactly once
each, in declaration order; every key of the produced record's `regions`
mapping is one of the configured region names; and the Sample stored under
a key `k` carries `region = k`. -/
theorem run_record_region_invariants (env : Env) :
    (run env).attempts = ["eastus2", "northeurope"]
  ∧ (∀ kv ∈ (run env).record.regions,
       kv.1 ∈ ["eastus2", "northeurope"] ∧ kv.2.region = kv.1) := by
  constructor
  · show (regionLoop env REGIONS).2 = _
    rw [regionLoop_snd]; rfl
  · intro kv hkv
    have hregs : (run env).record.regions
        = REGIONS.filterMap (fun r => (fetchPriceData env r.name).map (fun s => (r.name, s))) :=
      regionLoop_fst env REGIONS
    rw [hregs, List.mem_filterMap] at hkv
    obtain ⟨r, hr, hf⟩ := hkv
    cases h : fetchPriceData env r.name with
    | none => rw [h] at hf; simp at hf
    | some v =>
      rw [h] at hf
      simp only [Option.map_some', Option.some.injEq] at hf
      subst hf
      constructor
      · show r.name ∈ _
        simp only [REGIONS, List.mem_cons, List.mem_singleton] at hr
        rcases hr with hr | hr | hr
        · rw [hr]; simp
        · rw [hr]; simp
        · cases hr
      · exact fetchPriceData_region_eq env r.name v h

/-- C10 witness: in `envA` both regions are attempted in order and the
first stored entry's Sample carries its own key as `region`. -/
theorem run_record_region_invariants_witness :
    (run envA).attempts = ["eastus2", "northeurope"]
  ∧ kvR ∈ (run envA).record.regions
  ∧ kvR.1 ∈ ["eastus2", "northeurope"]
  ∧ kvR.2.region = kvR.1 := by
  have hshape : (run envA).record.regions = kvR :: ((run envA).record.regions).tail := rfl
  have hmem : kvR ∈ (run envA).record.regions := by
    rw [hshape]; exact List.mem_cons_self _ _
  have h := (run_record_region_invariants envA).2 kvR hmem
  exact ⟨(run_record_region_invariants envA).1, hmem, h.1, h.2⟩

/-- C2: the remote save first reads the current revision token; an
obtained (non-empty, per the JS truthiness test) token is included in the
write request, a 404 on the read omits it; and every write request built
carries the full replacement dataset,
base64-encoded (never a diff), with a commit message embedding the write
timestamp and the `main` branch. -/
theorem pushToGitHub_save_semantics (env : Env) (allData : Dataset)
    (h : hasCreds env = true) :
    (∀ f, env.ghGetShaResp = .ok f → f.sha ≠ "" →
       pushToGitHub env allData = putFile env allData (some f.sha))
  ∧ (∀ b, env.ghGetShaResp = .error (.status 404 b) →
       pushToGitHub env allData = putFile env allData none)
  ∧ (∀ sha, issuedRequest (putFile env allData sha) = some (mkPutRequest env.now allData sha))
  ∧ (∀ sha, (mkPutRequest env.now allData sha).content = base64Encode (stringifyDataset allData)
       ∧ (mkPutRequest env.now allData sha).message = "Update price data: " ++ env.now
       ∧ (mkPutRequest env.now allData sha).branch = "main"
       ∧ (mkPutRequest env.now allData sha).sha = sha) := by
  refine ⟨?_, ?_, ?_, fun sha => ⟨rfl, rfl, rfl, rfl⟩⟩
  · intro f hf hsha
    simp [pushToGitHub, h, hf, hsha]
  · intro b hb
    simp [pushToGitHub, h, hb, errStatus]
  · intro sha
    cases hp : env.putResp (mkPutRequest env.now allData sha) <;>
      simp [putFile, hp, issuedRequest]

/-- C2 witness: in `envA` (revision read answers 404) the push issues a
create-semantics write request whose content is the whole dataset,
base64-encoded, with the timestamped commit message. -/
theorem pushToGitHub_save_semantics_witness :
    hasCreds envA = true
  ∧ pushToGitHub envA [] = putFile envA [] none
  ∧ issuedRequest (putFile envA [] none) = some (mkPutRequest envA.now [] none)
  ∧ (mkPutRequest envA.now [] none).content = "W10="
  ∧ (mkPutRequest envA.now [] none).message = "Update price data: 2025-06-01T00:00:00Z"
  ∧ (mkPutRequest envA.now [] none).sha = none := by
  have h := pushToGitHub_save_semantics envA [] rfl
  exact ⟨rfl, h.2.1 "Not Found" rfl, h.2.2.1 none, rfl, rfl, (h.2.2.2 none).2.2.2⟩

/-- C3: every outcome of the remote save is absorbed: missing credentials
skip with a notice, a non-404 revision-read error or a failing PUT is
caught and logged with status code and body when available, and `run()`
still completes — its record, loaded data, pushed dataset, local-save
outcome and log are unchanged by any remote-save response. -/
theorem pushFailures_are_nonfatal (env : Env) (allData : Dataset) :
    (hasCreds env = false → pushToGitHub env allData = .skippedNoCreds)
  ∧ (∀ e, hasCreds env = true → env.ghGetShaResp = .error e → errStatus e ≠ some 404 →
       pushToGitHub env allData
         = .failedLogged none (axiosErrMsg e) (errStatus e) (errBody e))
  ∧ (∀ f c b, hasCreds env = true → env.ghGetShaResp = .ok f → f.sha ≠ "" →
       env.putResp (mkPutRequest env.now allData (some f.sha)) = .error (.status c b) →
       pushToGitHub env allData
         = .failedLogged (some (mkPutRequest env.now allData (some f.sha)))
             (axiosErrMsg (.status c b)) (some c) (some b))
  ∧ ((run env).log.getLast? = some "=== Price Check Complete ===")
  ∧ (∀ sha put,
       (run { env with ghGetShaResp := sha, putResp := put }).record = (run env).record
     ∧ (run { env with ghGetShaResp := sha, putResp := put }).loaded = (run env).loaded
     ∧ (run { env with ghGetShaResp := sha, putResp := put }).pushedData = (run env).pushedData
     ∧ (run { env with ghGetShaResp := sha, putResp := put }).saveOutcome = (run env).saveOutcome
     ∧ (run { env with ghGetShaResp := sha, putResp := put }).log = (run env).log) := by
  refine ⟨?_, ?_, ?_, rfl, fun sha put => ⟨rfl, rfl, rfl, rfl, rfl⟩⟩
  · intro h
    simp [pushToGitHub, h]
  · intro e hcreds he h404
    simp [pushToGitHub, hcreds, he, h404]
  · intro f c b hcreds hf hsha hput
    simp [pushToGitHub, hcreds, hf, hsha, putFile, hput, axiosErrMsg, errStatus, errBody]

/-- C3 witness: a 500 on the revision read is logged with its status and
body, the run's log still ends with the completion banner, and replacing
the PUT response with a conflict changes nothing about the rest of the
run. -/
theorem pushFailures_are_nonfatal_witness :
    pushToGitHub envC3 [] = .failedLogged none "Request failed with status code 500" (some 500) (some "boom")
  ∧ (run envC3).log.getLast? = some "=== Price Check Complete ==="
  ∧ (run envC3b).pushedData = (run envC3).pushedData := by
  have h := pushFailures_are_nonfatal envC3 []
  refine ⟨?_, h.2.2.2.1, (h.2.2.2.2 envC3b.ghGetShaResp envC3b.putResp).2.2.1⟩
  have h2 := h.2.1 (.status 500 "boom") rfl rfl (by decide)
  rw [h2]
  rfl

/-- C4: a 404 on the remote dataset load yields the empty sequence, and
any other HTTP error, transport failure or missing credentials is treated
identically; when the remote load yields empty the Orchestrator falls back
to the local snapshot, and when that also fails (read error or unparsable
content) it starts from the empty Dataset — load is total and never
raises. -/
theorem load_failures_yield_empty (env : Env) :
    (hasCreds env = false → fetchDataFromGitHub env = [])
  ∧ (∀ e, env.ghGetDataResp = .error e → fetchDataFromGitHub env = [])
  ∧ (fetchDataFromGitHub env = [] → loadExistingData env = localFallback env)
  ∧ (∀ m, env.localReadResp = .error m → localFallback env = [])
  ∧ (∀ s, env.localReadResp = .ok s → env.parseJsonStr s = none → localFallback env = []) := by
  refine ⟨?_, ?_, ?_, ?_, ?_⟩
  · intro h
    simp [fetchDataFromGitHub, h]
  · intro e he
    unfold fetchDataFromGitHub
    rw [he]
    cases h : hasCreds env <;> simp
  · intro h
    simp [loadExistingData, h]
  · intro m hm
    simp [localFallback, hm]
  · intro s hs hp
    simp [localFallback, hs, hp]

/-- C4 witness: in `envA` the remote load answers 404 and the local file is
absent, so the run starts from the empty Dataset. -/
theorem load_failures_yield_empty_witness :
    fetchDataFromGitHub envA = []
  ∧ loadExistingData envA = localFallback envA
  ∧ localFallback envA = []
  ∧ loadExistingData envA = [] := by
  have h := load_failures_yield_empty envA
  have hgh : fetchDataFromGitHub envA = [] := h.2.1 (.status 404 "Not Found") rfl
  have hlf : localFallback envA = [] := h.2.2.2.1 "ENOENT" rfl
  exact ⟨hgh, h.2.2.1 hgh, hlf, by rw [h.2.2.1 hgh, hlf]⟩

/-- C6: the local save writes only the current run's single Run Record
(the serialized singleton array, overwriting the file); an `EROFS`
(read-only filesystem) failure of the directory creation or the write is
converted into the skipped outcome; any other local I/O failure becomes a
logged warning; and no local outcome affects the rest of the run — the
remote save is still attempted on the same appended dataset. -/
theorem localSave_is_advisory (env : Env) (rec : RunRecord) :
    (∀ s, saveData env rec = .savedLocally s → s = stringifyDataset [rec])
  ∧ (∀ m, ensureDataDirectory env = .ok () → env.writeFileResp = .error ⟨"EROFS", m⟩ →
       saveData env rec = .skippedReadonly)
  ∧ (∀ a am wm, env.accessResp = .error a → env.mkdirResp = .error ⟨"EROFS", am⟩ →
       env.writeFileResp = .error ⟨"EROFS", wm⟩ →
       ensureDataDirectory env = .ok () ∧ saveData env rec = .skippedReadonly)
  ∧ (∀ e, ensureDataDirectory env = .ok () → env.writeFileResp = .error e →
       e.code ≠ "EROFS" → saveData env rec = .warnedFailure e.msg)
  ∧ ((run env).pushOutcome = pushToGitHub env (loadExistingData env ++ [(run env).record]))
  ∧ (∀ a mk w,
       (run { env with accessResp := a, mkdirResp := mk, writeFileResp := w }).record
           = (run env).record
     ∧ (run { env with accessResp := a, mkdirResp := mk, writeFileResp := w }).pushedData
           = (run env).pushedData
     ∧ (run { env with accessResp := a, mkdirResp := mk, writeFileResp := w }).pushOutcome
           = (run env).pushOutcome) := by
  refine ⟨?_, ?_, ?_, ?_, rfl, fun a mk w => ⟨rfl, rfl, rfl⟩⟩
  · intro s hs
    unfold saveData at hs
    cases hd : ensureDataDirectory env with
    | error e =>
      rw [hd] at hs
      by_cases he : e.code = "EROFS" <;> simp [he] at hs
    | ok u =>
      rw [hd] at hs
      cases hw : env.writeFileResp with
      | ok u2 =>
        rw [hw] at hs
        simp only [SaveOutcome.savedLocally.injEq] at hs
        exact hs.symm
      | error e =>
        rw [hw] at hs
        by_cases he : e.code = "EROFS" <;> simp [he] at hs
  · intro m hd hw
    simp [saveData, hd, hw]
  · intro a am wm ha hm hw
    have hd : ensureDataDirectory env = .ok () := by
      simp [ensureDataDirectory, ha, hm]
    exact ⟨hd, by simp [saveData, hd, hw]⟩
  · intro e hd hw he
    simp [saveData, hd, hw, he]

/-- C6 witness: in `envErr` (read-only filesystem) the directory creation
is skipped, the write's `EROFS` becomes the skipped outcome, and the run
still attempts the remote save on the appended dataset. -/
theorem localSave_is_advisory_witness :
    ensureDataDirectory envErr = .ok ()
  ∧ saveData envErr ⟨"t", []⟩ = .skippedReadonly
  ∧ (run envErr).pushOutcome
      = pushToGitHub envErr (loadExistingData envErr ++ [(run envErr).record]) := by
  have h := localSave_is_advisory envErr ⟨"t", []⟩
  have h3 := h.2.2.1 ⟨"ENOENT", "no such file or directory"⟩
    "read-only file system" "read-only file system" rfl rfl rfl
  exact ⟨h3.1, h3.2, h.2.2.2.2.1⟩

/-- C7: aggregation places every Sample into exactly one region bucket
keyed by its region (bucket keys are duplicate-free and each bucket's
series is exactly the chronologically ordered points of the samples stored
under that key), and each bucket's stats satisfy: count = number of
samples, current = last retailPrice, min/max = minimum/maximum retailPrice,
avg = arithmetic mean of the retailPrices. -/
theorem aggregate_groups_and_stats (now : String) (D : Dataset) :
    ((groupRegions D).map Prod.fst).Nodup
  ∧ (∀ r, bucketData (groupRegions D) r = specPoints D r)
  ∧ (∀ kv, kv ∈ (processData now D).regions →
       kv.2.stats.count = kv.2.data.length
     ∧ kv.2.stats.current = (kv.2.data.map PricePoint.retailPrice).getLast?
     ∧ (∀ m, kv.2.stats.min = some m →
          m ∈ kv.2.data.map PricePoint.retailPrice
        ∧ ∀ x ∈ kv.2.data.map PricePoint.retailPrice, m ≤ x)
     ∧ (∀ m, kv.2.stats.max = some m →
          m ∈ kv.2.data.map PricePoint.retailPrice
        ∧ ∀ x ∈ kv.2.data.map PricePoint.retailPrice, x ≤ m)
     ∧ kv.2.stats.avg = (if kv.2.data = [] then none
          else some ((kv.2.data.map PricePoint.retailPrice).sum / kv.2.data.length))) := by
  refine ⟨nodup_keys_groupRegions D, fun r => bucketData_groupRegions D r, ?_⟩
  intro kv hkv
  have hregs : (processData now D).regions = (groupRegions D).map (fun kv =>
      (kv.1, { name := kv.2.name, displayName := kv.2.displayName, data := kv.2.data,
               stats := computeStats (kv.2.data.map PricePoint.retailPrice) })) := rfl
  rw [hregs, List.mem_map] at hkv
  obtain ⟨kv0, hkv0, rfl⟩ := hkv
  have hs := computeStats_spec (kv0.2.data.map PricePoint.retailPrice)
  refine ⟨?_, hs.2.1, hs.2.2.1, hs.2.2.2.1, ?_⟩
  · rw [show (computeStats (kv0.2.data.map PricePoint.retailPrice)).count
        = (kv0.2.data.map PricePoint.retailPrice).length from hs.1, List.length_map]
  · rw [hs.2.2.2.2]
    by_cases h : kv0.2.data = []
    · simp [h]
    · have hm : kv0.2.data.map PricePoint.retailPrice ≠ [] := by
        simpa using h
      rw [if_neg hm, if_neg h, List.length_map]

/-- C7 witness: on the Scenario E dataset the single `eastus2` bucket has
count 3 (= its data length), minimum price 1, and 1 occurs among its
prices. -/
theorem aggregate_groups_and_stats_witness :
    kvE ∈ (processData "x" scenarioE).regions
  ∧ kvE.2.stats.count = kvE.2.data.length
  ∧ kvE.2.stats.min = some 1
  ∧ (1 : ℚ) ∈ kvE.2.data.map PricePoint.retailPrice := by
  have hshape : (processData "x" scenarioE).regions
      = kvE :: ((processData "x" scenarioE).regions).tail := rfl
  have hmem : kvE ∈ (processData "x" scenarioE).regions := by
    rw [hshape]
    exact List.mem_cons_self _ _
  have h := (aggregate_groups_and_stats "x" scenarioE).2.2 kvE hmem
  have hmin : kvE.2.stats.min = some 1 := by decide
  exact ⟨hmem, h.1, hmin, (h.2.2.1 1 hmin).1⟩

/-- C8: aggregation is deterministic and pure: for a fixed Dataset (and a
fixed clock reading for the `lastUpdated` stamp) two evaluations produce
equal outputs, and the statistical content (`regions` and `summary`) does
not depend on the clock at all — no hidden state influences the result. -/
theorem aggregate_deterministic :
    (∀ now D, processData now D = processData now D)
  ∧ (∀ t1 t2 D, (processData t1 D).regions = (processData t2 D).regions
       ∧ (processData t1 D).summary = (processData t2 D).summary) :=
  ⟨fun _ _ => rfl, fun _ _ _ => ⟨rfl, rfl⟩⟩

/-- C9: aggregation is total on every well-formed Dataset including the
empty one (the empty Dataset yields no region buckets, zero entries and a
null date range), and the stats computation on a region with zero samples
yields null for current, min, max and avg. -/
theorem aggregate_total_on_empty (now : String) :
    processData now []
      = { lastUpdated := now, regions := [],
          summary := { totalEntries := 0,
                       dateRange := { start := none, «end» := none } } }
  ∧ computeStats []
      = { count := 0, current := none, min := none, max := none, avg := none } :=
  ⟨rfl, rfl⟩

end SpotPrice
